import Mathlib

/-!
Shallow embedding of the build-orchestration core of the latex-report-template
repository (scripts/compile.py, scripts/watch.py, scripts/clean.py), together
with theorems settling the specification claims about it.

Conventions of the embedding:
* External process exit codes are natural numbers (0 = success), supplied by
  oracles in `CompileEnv`; a subprocess timeout surfaces in the Python code as
  `success = False`, which the oracle models as a nonzero exit outcome.
* The observable behaviour of `compile_document` is its returned success flag
  together with the ordered trace of external tool invocations it performs.
  Console printing, build-directory creation, class-file copying and the
  `clean_first`/`verbose` flags touch neither of these observables and are
  not part of the model.
* Strings are modelled as `List Char`; Python `str.lower()` on the ASCII
  text involved agrees with `Char.toLower`.
-/

namespace LatexBuild

/-- Kinds of external processes spawned by `scripts/compile.py`:
the `pdflatex --version` probe (`check_latex_installation`), the
`biber --version` probe (`check_biber_installation`), a `pdflatex`
compilation pass (`run_pdflatex`) and a `biber` bibliography pass
(`run_biber`). -/
inductive Proc where
  | latexProbe : Proc
  | biberProbe : Proc
  | latexPass : Proc
  | biberPass : Proc
deriving DecidableEq, Repr

/-- Environment of one `compile_document` invocation: the state of the world
the script observes.  `mainFileExists` is `main_path.exists()`;
`latexAvailable` is the outcome of the `pdflatex --version` probe;
`biberAvailable` the outcome of the `biber --version` probe;
`pdflatexExit i` is the exit code of the `i`-th `pdflatex` compilation pass
(counting from 0) and `biberExit j` the exit code of the `j`-th `biber` pass;
`bcfExists` records whether the biber control file (`.bcf`) is present in the
build directory, and `pdfExists` whether `build/<stem>.pdf` exists when the
script checks for it at the end.  The last two are world state the claims
refer to; `compile_document` reads `pdfExists` only to print a message. -/
structure CompileEnv where
  mainFileExists : Bool
  latexAvailable : Bool
  biberAvailable : Bool
  pdflatexExit : Nat → Nat
  biberExit : Nat → Nat
  bcfExists : Bool
  pdfExists : Bool

/-- A step of the full compilation recipe: a `pdflatex` pass or a `biber`
pass (the elements of `compilation_steps` in `compile_document`). -/
inductive StepKind where
  | latex : StepKind
  | biber : StepKind
deriving DecidableEq, Repr

/-- The `compilation_steps` list built in `compile_document` for full mode:
with biber available the steps are pass₁, biber, pass₂, pass₃; without
biber they are pass₁, pass₂, pass₃ (lines 231-247 of compile.py). -/
def fullSteps (has_biber : Bool) : List StepKind :=
  if has_biber then
    [StepKind.latex, StepKind.biber, StepKind.latex, StepKind.latex]
  else
    [StepKind.latex, StepKind.latex, StepKind.latex]

/-- The `for step_desc, step_func in compilation_steps` loop (lines 249-260):
execute the steps in order, consuming the pdflatex/biber exit-code oracles
in order, and `break` with overall failure at the first step whose exit code
is nonzero.  Returns the success flag and the trace of passes executed. -/
def runSteps (env : CompileEnv) : List StepKind → Nat → Nat → Bool × List Proc
  | [], _, _ => (true, [])
  | StepKind.latex :: rest, i, j =>
      if env.pdflatexExit i = 0 then
        let r := runSteps env rest (i + 1) j
        (r.1, Proc.latexPass :: r.2)
      else
        (false, [Proc.latexPass])
  | StepKind.biber :: rest, i, j =>
      if env.biberExit j = 0 then
        let r := runSteps env rest i (j + 1)
        (r.1, Proc.biberPass :: r.2)
      else
        (false, [Proc.biberPass])

/-- Function `compile_document(main_file, quick, ...)` of scripts/compile.py, as the
pair (returned success flag, ordered trace of spawned external processes).
Control flow translated line by line: validate `main_path.exists()` (return
`False` before any subprocess); `check_latex_installation()` (spawns the
pdflatex probe, returns `False` if it fails); `check_biber_installation()`
(spawns the biber probe unconditionally); then either the single quick pass
or the full step sequence with its short-circuit loop.  The final block only
prints: the returned flag is the `success` variable, independent of the log
analysis and of `pdf_file.exists()`. -/
def compile_document (env : CompileEnv) (quick : Bool) : Bool × List Proc :=
  if env.mainFileExists = false then
    (false, [])
  else if env.latexAvailable = false then
    (false, [Proc.latexProbe])
  else if quick then
    (env.pdflatexExit 0 == 0, [Proc.latexProbe, Proc.biberProbe, Proc.latexPass])
  else
    let r := runSteps env (fullSteps env.biberAvailable) 0 0
    (r.1, [Proc.latexProbe, Proc.biberProbe] ++ r.2)

/-- Exit codes the oracles assign to a step list, with the same running
pdflatex/biber indices `runSteps` consumes: position `k` of the result is
the exit code the `k`-th scheduled step would report. -/
def stepExits (env : CompileEnv) : List StepKind → Nat → Nat → List Nat
  | [], _, _ => []
  | StepKind.latex :: rest, i, j => env.pdflatexExit i :: stepExits env rest (i + 1) j
  | StepKind.biber :: rest, i, j => env.biberExit j :: stepExits env rest i (j + 1)

/-- The process-trace entries corresponding to a list of scheduled steps. -/
def stepProcs : List StepKind → List Proc
  | [] => []
  | StepKind.latex :: rest => Proc.latexPass :: stepProcs rest
  | StepKind.biber :: rest => Proc.biberPass :: stepProcs rest

/-- Exit codes of the passes that `compile_document` schedules for a request
(quick: the single pass; full: the steps of `fullSteps`), in order. -/
def requiredPassExits (env : CompileEnv) (quick : Bool) : List Nat :=
  if quick then
    [env.pdflatexExit 0]
  else if env.biberAvailable then
    [env.pdflatexExit 0, env.biberExit 0, env.pdflatexExit 1, env.pdflatexExit 2]
  else
    [env.pdflatexExit 0, env.pdflatexExit 1, env.pdflatexExit 2]

/-- Example environment: everything available, all passes succeed, pdf
produced. -/
def envAllGood : CompileEnv :=
  { mainFileExists := true
    latexAvailable := true
    biberAvailable := true
    pdflatexExit := fun _ => 0
    biberExit := fun _ => 0
    bcfExists := true
    pdfExists := true }

/-- Environment with everything in order except that no pdf is present in
the build directory after the passes. -/
def envNoPdf : CompileEnv :=
  { envAllGood with pdfExists := false }

/-- Environment with the biber probe failing (biber not installed). -/
def envNoBiber : CompileEnv :=
  { envAllGood with biberAvailable := false }

/-- Environment with the main document file absent. -/
def envNoMain : CompileEnv :=
  { envAllGood with mainFileExists := false }

/-- Environment where every biber pass exits nonzero and the biber control
file is absent from the build directory (nothing to resolve). -/
def envBiberFails : CompileEnv :=
  { envAllGood with biberExit := fun _ => 2, bcfExists := false }

/-- Environment where every pdflatex compilation pass exits nonzero. -/
def envLatexFails : CompileEnv :=
  { envAllGood with pdflatexExit := fun _ => 1 }

/-- Environment where the first pdflatex pass succeeds but every later
pdflatex pass exits nonzero (the second compiler pass is the first
failure of the with-biber sequence). -/
def envLatex2Fails : CompileEnv :=
  { envAllGood with pdflatexExit := fun i => if i = 0 then 0 else 1 }



/-! ## Log analyzer (`analyze_log_file`, compile.py lines 132-155) -/

/-- Python `log_content.split(chr(10))`: split a character list at every
newline; always returns at least one (possibly empty) line. -/
def splitLines : List Char → List (List Char)
  | [] => [[]]
  | c :: rest =>
    match splitLines rest with
    | [] => [[]]
    | l :: ls => if c = '\n' then [] :: l :: ls else (c :: l) :: ls

/-- Boolean list-prefix test (needle, haystack). -/
def isPrefixOfB : List Char → List Char → Bool
  | [], _ => true
  | _ :: _, [] => false
  | a :: as, b :: bs => a == b && isPrefixOfB as bs

/-- Boolean substring test: Python `needle in hay` on strings
(needle first, haystack second). -/
def isInfixOfB (needle : List Char) : List Char → Bool
  | [] => isPrefixOfB needle []
  | b :: bs => isPrefixOfB needle (b :: bs) || isInfixOfB needle bs

/-- Python `line.startswith(chr(33))`: the line begins with the TeX
fatal-error marker `!`. -/
def lineIsError (line : List Char) : Bool :=
  match line with
  | '!' :: _ => true
  | _ => false

/-- The warning test of compile.py line 152:
`if Warning-colon in line or warning-colon in line` — exactly the two
casings `Warning:` and `warning:` are searched for. -/
def warnMatch (line : List Char) : Bool :=
  isInfixOfB ("Warning:".toList) line || isInfixOfB ("warning:".toList) line

/-- Case-insensitive substring test (lowercase both sides first); used to
state the reading the specification gives of the warning rule, not by the code. -/
def containsCI (hay needle : List Char) : Bool :=
  isInfixOfB (needle.map Char.toLower) (hay.map Char.toLower)

/-- The `for i, line in enumerate(lines)` loop of compile.py lines 149-153,
with the running index made explicit: scan the lines, emitting the error
diagnostic `(i+1, line)` when the line starts with `!`, else the warning
diagnostic `(i+1, line)` when `warnMatch` holds (the `elif`), else nothing.
A diagnostic `(n, l)` stands for the Python string built by the code from
the 1-based line number `n` and the line text `l`. -/
def analyzeLines : List (List Char) → Nat → List (Nat × List Char) × List (Nat × List Char)
  | [], _ => ([], [])
  | line :: rest, i =>
    let r := analyzeLines rest (i + 1)
    if lineIsError line then ((i + 1, line) :: r.1, r.2)
    else if warnMatch line then (r.1, (i + 1, line) :: r.2)
    else r

/-- Function `analyze_log_file` of compile.py on a log text already read from disk:
split the content at newlines and run the scanning loop, returning the
(errors, warnings) pair of diagnostic lists. -/
def analyze_log_file (content : List Char) : List (Nat × List Char) × List (Nat × List Char) :=
  analyzeLines (splitLines content) 0

/-- Pair each list element with its position, counting from `n + 1`:
the numbering scheme of the diagnostics of the analyzer. -/
def numberLines (n : Nat) : List (List Char) → List (Nat × List Char)
  | [] => []
  | l :: ls => (n + 1, l) :: numberLines (n + 1) ls




/-! ## Cleaner (`clean_build_directory`, clean.py lines 67-90) -/

/-- Python `pathlib.PurePath.suffix` for a plain file name: the substring from the
last dot onward, provided that dot is neither the first nor the last
character of the name; otherwise the empty suffix. -/
def pySuffix (cs : List Char) : List Char :=
  match (cs.reverse).findIdx? (fun c => c == '.') with
  | none => []
  | some k =>
    let i := cs.length - 1 - k
    if 0 < i && i + 1 < cs.length then cs.drop i else []

/-- The keep-test of clean.py line 79:
`file_path.suffix.lower() == dot-pdf`. -/
def isPdfName (cs : List Char) : Bool :=
  (pySuffix cs).map Char.toLower == ".pdf".toList

/-- Function `clean_build_directory(build_dir, keep_pdf)` of clean.py, with the build
directory modelled as the list of the names of its regular files: iterate over the
files; when `keep_pdf` holds and the lowercased suffix is `.pdf`, `continue`
(keep the file); otherwise unlink it and count it.  Returns the list of
files still present afterwards and the removal count (a `PermissionError`
would merely leave an extra file in place; deletions here succeed). -/
def clean_build_directory (files : List (List Char)) (keep_pdf : Bool) : List (List Char) × Nat :=
  match files with
  | [] => ([], 0)
  | f :: rest =>
    let r := clean_build_directory rest keep_pdf
    if keep_pdf && isPdfName f then (f :: r.1, r.2) else (r.1, r.2 + 1)



/-! ## Rebuild loop (`LaTeXFileHandler` / `watch_files`, watch.py) -/

/-- The mutable handler state of `LaTeXFileHandler.__init__`:
`self.last_compile` (a timestamp, initially 0) and `self.pending_compile`
(initially `False`).  Time is modelled as `Nat`; the Python expression
`current_time - self.last_compile` on a clock that never runs backwards is
the truncated subtraction used here. -/
structure WatchState where
  last_compile : Nat
  pending_compile : Bool
deriving DecidableEq, Repr

/-- Method `LaTeXFileHandler.compile_document` (watch.py lines 125-155) as a state
transition at time `t`: set `last_compile` to the current time and clear
the pending flag (the spawned compile subprocess is the triggered
compilation the theorems count). -/
def handlerCompile (t : Nat) (_s : WatchState) : WatchState :=
  { last_compile := t, pending_compile := false }

/-- Method `LaTeXFileHandler.schedule_compile` (watch.py lines 114-123) at time
`t`: if less than `compile_delay` has elapsed since `last_compile`, only set
the pending flag and return; otherwise compile now.  The returned Boolean
records whether a compilation was started. -/
def schedule_compile (delay t : Nat) (s : WatchState) : WatchState × Bool :=
  if t - s.last_compile < delay then
    ({ s with pending_compile := true }, false)
  else
    (handlerCompile t s, true)

/-- Method `LaTeXFileHandler.check_pending_compile` (watch.py lines 157-162) at
time `t`: when the pending flag is set and at least `compile_delay` has
elapsed since `last_compile`, compile now.  The returned Boolean records
whether a compilation was started. -/
def check_pending_compile (delay t : Nat) (s : WatchState) : WatchState × Bool :=
  if s.pending_compile then
    if delay ≤ t - s.last_compile then (handlerCompile t s, true) else (s, false)
  else
    (s, false)

/-- An observable stimulus of the watch loop: a matching filesystem change
event reaching `schedule_compile` (via `on_modified`/`on_created`), or one
tick of the once-per-second `check_pending_compile` polling, each carrying
the clock value at which it occurs. -/
inductive WEvent where
  | change : Nat → WEvent
  | poll : Nat → WEvent
deriving DecidableEq, Repr

/-- Dispatch one stimulus to the handler. -/
def stepW (delay : Nat) (s : WatchState) : WEvent → WatchState × Bool
  | WEvent.change t => schedule_compile delay t s
  | WEvent.poll t => check_pending_compile delay t s

/-- Run the watch loop over a sequence of stimuli, returning the final
handler state and the number of compilations started. -/
def runW (delay : Nat) (s : WatchState) : List WEvent → WatchState × Nat
  | [] => (s, 0)
  | e :: es =>
    let r := stepW delay s e
    let r2 := runW delay r.1 es
    (r2.1, (if r.2 then 1 else 0) + r2.2)

/-- Function `watch_files(main_file, quick_mode, compile_delay)` of watch.py up to
and including its event processing: validate that the main file exists
(return `False` having compiled nothing), otherwise create the handler
(state `⟨0, false⟩`), run the initial `handler.compile_document()` at the
session start time `t0`, then process the stimuli of the session.  Returns the
outcome flag, the final handler state and the total number of compilations
started. -/
def watch_files (mainExists : Bool) (t0 delay : Nat) (events : List WEvent) :
    Bool × WatchState × Nat :=
  if mainExists = false then
    (false, { last_compile := 0, pending_compile := false }, 0)
  else
    let s1 := handlerCompile t0 { last_compile := 0, pending_compile := false }
    let r := runW delay s1 events
    (true, r.1, 1 + r.2)



/-! ## Helper lemmas about the analyzer -/

theorem numberLines_fst_le (ls : List (List Char)) :
    ∀ (n : Nat) (p : Nat × List Char), p ∈ numberLines n ls → n + 1 ≤ p.1 := by
  induction ls with
  | nil => intro n p hp; cases hp
  | cons l ls ih =>
    intro n p hp
    cases hp with
    | head => exact Nat.le_refl _
    | tail _ hmem => exact Nat.le_of_succ_le (ih (n + 1) p hmem)

theorem numberLines_fst_inj (ls : List (List Char)) :
    ∀ (n m : Nat) (s t : List Char),
      (m, s) ∈ numberLines n ls → (m, t) ∈ numberLines n ls → s = t := by
  induction ls with
  | nil => intro n m s t hs; cases hs
  | cons l ls ih =>
    intro n m s t hs ht
    cases hs with
    | head =>
      cases ht with
      | head => rfl
      | tail _ hmem =>
        have := numberLines_fst_le ls (n + 1) (n + 1, t) hmem
        omega
    | tail _ hs2 =>
      cases ht with
      | head =>
        have := numberLines_fst_le ls (n + 1) (n + 1, s) hs2
        omega
      | tail _ ht2 => exact ih (n + 1) m s t hs2 ht2

theorem numberLines_map_fst_nodup (ls : List (List Char)) :
    ∀ n : Nat, ((numberLines n ls).map Prod.fst).Nodup := by
  induction ls with
  | nil => intro n; simp [numberLines]
  | cons l ls ih =>
    intro n
    simp only [numberLines, List.map_cons, List.nodup_cons]
    refine ⟨?_, ih (n + 1)⟩
    intro hmem
    obtain ⟨p, hp, hfst⟩ := List.mem_map.mp hmem
    have := numberLines_fst_le ls (n + 1) p hp
    omega

theorem analyzeLines_eq (ls : List (List Char)) :
    ∀ n : Nat,
      analyzeLines ls n =
        ((numberLines n ls).filter (fun p => lineIsError p.2),
         (numberLines n ls).filter (fun p => !lineIsError p.2 && warnMatch p.2)) := by
  induction ls with
  | nil => intro n; rfl
  | cons l ls ih =>
    intro n
    simp only [analyzeLines, numberLines, List.filter_cons, ih]
    cases he : lineIsError l
    · cases hw : warnMatch l <;> simp [he, hw]
    · simp [he]

theorem runSteps_congr (env₁ env₂ : CompileEnv)
    (hp : env₁.pdflatexExit = env₂.pdflatexExit)
    (hb : env₁.biberExit = env₂.biberExit) :
    ∀ (steps : List StepKind) (i j : Nat),
      runSteps env₁ steps i j = runSteps env₂ steps i j := by
  intro steps
  induction steps with
  | nil => intro i j; rfl
  | cons s rest ih =>
    intro i j
    cases s <;> simp [runSteps, hp, hb, ih]

theorem runSteps_first_failure (env : CompileEnv) :
    ∀ (steps : List StepKind) (i j k : Nat),
      (∀ e ∈ (stepExits env steps i j).take k, e = 0) →
      (stepExits env steps i j).getD k 0 ≠ 0 →
      runSteps env steps i j = (false, stepProcs (steps.take (k + 1))) := by
  intro steps
  induction steps with
  | nil =>
    intro i j k _ h2
    simp [stepExits, List.getD] at h2
  | cons s rest ih =>
    intro i j k h1 h2
    cases s
    case latex =>
      cases k with
      | zero =>
        have hx : env.pdflatexExit i ≠ 0 := by
          simpa [stepExits, List.getD_cons_zero] using h2
        simp [runSteps, stepProcs, hx]
      | succ k =>
        simp only [stepExits, List.take_succ_cons, List.getD_cons_succ] at h1 h2
        have hx : env.pdflatexExit i = 0 := h1 _ (List.mem_cons_self _ _)
        have h1t : ∀ e ∈ (stepExits env rest (i + 1) j).take k, e = 0 :=
          fun e he => h1 e (List.mem_cons_of_mem _ he)
        simp [runSteps, stepProcs, hx, ih (i + 1) j k h1t h2]
    case biber =>
      cases k with
      | zero =>
        have hx : env.biberExit j ≠ 0 := by
          simpa [stepExits, List.getD_cons_zero] using h2
        simp [runSteps, stepProcs, hx]
      | succ k =>
        simp only [stepExits, List.take_succ_cons, List.getD_cons_succ] at h1 h2
        have hx : env.biberExit j = 0 := h1 _ (List.mem_cons_self _ _)
        have h1t : ∀ e ∈ (stepExits env rest i (j + 1)).take k, e = 0 :=
          fun e he => h1 e (List.mem_cons_of_mem _ he)
        simp [runSteps, stepProcs, hx, ih i (j + 1) k h1t h2]

/-! ## Claim theorems and witnesses -/

/-- C3 (counterexample): the line `LATEX WARNING: Citation undefined`
contains the substring `warning:` when compared case-insensitively, so the
claim classifies it as a warning; the analyzer, which searches only for the
exact casings `Warning:` and `warning:`, returns no diagnostic at all for a
log consisting of this line. -/
theorem analyzer_warning_case_sensitive_cex :
    containsCI ("LATEX WARNING: Citation undefined".toList) ("warning:".toList) = true ∧
    analyze_log_file ("LATEX WARNING: Citation undefined".toList) = ([], []) := by
  decide

/-- C3 (amended): for every log text, the errors returned by the analyzer
are exactly the numbered lines beginning with `!`, the warnings are exactly
the numbered lines that contain `Warning:` or `warning:` (these two exact
casings, not arbitrary casings) and do not begin with `!`, and both lists
preserve the top-to-bottom order of the log because they are filters of the
numbered line list. -/
theorem analyzer_classification (content : List Char) :
    analyze_log_file content =
      ((numberLines 0 (splitLines content)).filter (fun p => lineIsError p.2),
       (numberLines 0 (splitLines content)).filter
         (fun p => !lineIsError p.2 && warnMatch p.2)) :=
  analyzeLines_eq (splitLines content) 0

/-- C9: the analyzer yields at most one diagnostic per log line — the line
numbers occurring in the returned error and warning lists are distinct
across the two lists taken together — and error classification takes
precedence: no warning diagnostic is issued for a line beginning with `!`. -/
theorem analyzer_single_diagnostic_per_line (content : List Char) :
    (((analyze_log_file content).1.map Prod.fst) ++
      ((analyze_log_file content).2.map Prod.fst)).Nodup ∧
    (analyze_log_file content).2.all (fun p => !lineIsError p.2) = true := by
  simp only [analyze_log_file]
  rw [analyzeLines_eq (splitLines content) 0]
  set nl := numberLines 0 (splitLines content) with hnl
  constructor
  · rw [List.nodup_append]
    refine ⟨?_, ?_, ?_⟩
    · exact ((List.filter_sublist nl).map Prod.fst).nodup
        (numberLines_map_fst_nodup (splitLines content) 0)
    · exact ((List.filter_sublist nl).map Prod.fst).nodup
        (numberLines_map_fst_nodup (splitLines content) 0)
    · intro a ha hb
      obtain ⟨p, hp, hpa⟩ := List.mem_map.mp ha
      obtain ⟨q, hq, hqa⟩ := List.mem_map.mp hb
      obtain ⟨hpmem, hperr⟩ := List.mem_filter.mp hp
      obtain ⟨hqmem, hqw⟩ := List.mem_filter.mp hq
      have hpq : p.2 = q.2 := by
        subst hpa
        apply numberLines_fst_inj (splitLines content) 0 p.1
        · simpa using hpmem
        · rw [← hqa]; simpa using hqmem
      rw [hpq] at hperr
      simp only [Bool.and_eq_true, Bool.not_eq_true'] at hqw
      rw [hperr] at hqw
      exact absurd hqw.1 (by simp)
  · rw [List.all_eq_true]
    intro p hp
    obtain ⟨_, hpw⟩ := List.mem_filter.mp hp
    simp only [Bool.and_eq_true] at hpw
    exact hpw.1

/-- C1 (counterexample): a full-mode request in which every required pass
exits with status zero but the expected pdf artifact does not exist
afterwards is still reported successful by `compile_document`, so the
overall outcome is not "all passes zero AND the artifact exists" — artifact
presence plays no part in the returned success flag. -/
theorem compile_success_despite_missing_pdf_cex :
    (requiredPassExits envNoPdf false).all (fun e => e == 0) = true ∧
    envNoPdf.pdfExists = false ∧
    (compile_document envNoPdf false).1 = true := by
  decide

/-- C1 (amended): for every compilation request that passes preflight, the
overall outcome is successful if and only if every required pass in its
sequence exits with status zero; neither the presence of the output pdf nor
log warnings affect the outcome (the artifact check and the log analysis
only produce messages). -/
theorem compile_success_iff_pass_exits_zero (env : CompileEnv) (quick : Bool)
    (hm : env.mainFileExists = true) (hl : env.latexAvailable = true) :
    ((compile_document env quick).1 = true ↔
      (requiredPassExits env quick).all (fun e => e == 0) = true) ∧
    (∀ b : Bool, compile_document { env with pdfExists := b } quick =
      compile_document env quick) := by
  constructor
  · cases hq : quick
    · cases hb : env.biberAvailable <;>
        simp only [compile_document, requiredPassExits, fullSteps, hm, hl, hb,
          Bool.false_eq_true, if_false, if_true, reduceIte] <;>
      · by_cases h0 : env.pdflatexExit 0 = 0 <;>
          by_cases h1 : env.pdflatexExit 1 = 0 <;>
          by_cases h2 : env.pdflatexExit 2 = 0 <;>
          by_cases hbe : env.biberExit 0 = 0 <;>
          simp [runSteps, h0, h1, h2, hbe]
    · by_cases h0 : env.pdflatexExit 0 = 0 <;>
        simp [compile_document, requiredPassExits, hm, hl, h0]
  · intro b
    cases env with
    | mk m l bib pexit bexit bcf pdf =>
      have h := runSteps_congr (CompileEnv.mk m l bib pexit bexit bcf b)
        (CompileEnv.mk m l bib pexit bexit bcf pdf) rfl rfl
      simp only [compile_document, h]

/-- C1 (witness): the amended equivalence instantiated at the
all-successful environment. -/
theorem compile_success_iff_pass_exits_zero_witness :
    (envAllGood.mainFileExists = true ∧ envAllGood.latexAvailable = true) ∧
    ((compile_document envAllGood false).1 = true ↔
      (requiredPassExits envAllGood false).all (fun e => e == 0) = true) :=
  ⟨⟨rfl, rfl⟩, (compile_success_iff_pass_exits_zero envAllGood false rfl rfl).1⟩

/-- C2 (counterexample): in full mode with the bibliography probe failing
and all compiler passes succeeding, `compile_document` invokes three
compiler passes, not the two the claim states. -/
theorem full_mode_without_biber_three_passes_cex :
    envNoBiber.biberAvailable = false ∧
    (compile_document envNoBiber false).2.count Proc.latexPass = 3 ∧
    (compile_document envNoBiber false).2.count Proc.biberPass = 0 := by
  decide

/-- C2 (amended): in full mode, when the bibliography probe succeeds and
all passes exit zero the orchestrator executes compile-pass₁, the
bibliography pass, compile-pass₂ and compile-pass₃; when the probe fails it
executes compile-pass₁, compile-pass₂ and compile-pass₃ — exactly three
compiler passes and no bibliography call (the two probes precede the passes
in either case). -/
theorem full_mode_pass_sequence (env : CompileEnv)
    (hm : env.mainFileExists = true) (hl : env.latexAvailable = true)
    (h0 : env.pdflatexExit 0 = 0) (h1 : env.pdflatexExit 1 = 0)
    (h2 : env.pdflatexExit 2 = 0) (hbe : env.biberExit 0 = 0) :
    (env.biberAvailable = true →
      (compile_document env false).2 =
        [Proc.latexProbe, Proc.biberProbe, Proc.latexPass, Proc.biberPass,
         Proc.latexPass, Proc.latexPass]) ∧
    (env.biberAvailable = false →
      (compile_document env false).2 =
        [Proc.latexProbe, Proc.biberProbe, Proc.latexPass, Proc.latexPass,
         Proc.latexPass]) := by
  constructor <;> intro hb <;>
    simp [compile_document, fullSteps, runSteps, hm, hl, hb, h0, h1, h2, hbe]

/-- C2 (witness): the amended pass sequences at the two concrete
environments, with and without biber. -/
theorem full_mode_pass_sequence_witness :
    (compile_document envAllGood false).2 =
      [Proc.latexProbe, Proc.biberProbe, Proc.latexPass, Proc.biberPass,
       Proc.latexPass, Proc.latexPass] ∧
    (compile_document envNoBiber false).2 =
      [Proc.latexProbe, Proc.biberProbe, Proc.latexPass, Proc.latexPass,
       Proc.latexPass] :=
  ⟨(full_mode_pass_sequence envAllGood rfl rfl rfl rfl rfl rfl).1 rfl,
   (full_mode_pass_sequence envNoBiber rfl rfl rfl rfl rfl rfl).2 rfl⟩

/-- C4 (counterexample): a full-mode request in which the bibliography pass
fails while its control file is absent — the case the claim calls
non-fatal ("nothing to resolve") — makes the whole compilation fail:
`compile_document` contains no control-file check and treats every
bibliography-pass failure as fatal. -/
theorem biber_failure_no_control_file_cex :
    envBiberFails.bcfExists = false ∧
    envBiberFails.pdflatexExit 0 = 0 ∧
    envBiberFails.biberExit 0 ≠ 0 ∧
    (compile_document envBiberFails false).1 = false := by
  refine ⟨rfl, rfl, ?_, by decide⟩
  decide

/-- C4 (amended): in full mode, any pass returning a nonzero exit — a
compiler pass at any position or the bibliography pass — aborts all
remaining passes immediately and makes the compilation fail: whenever the
`k`-th scheduled pass is the first one whose exit code is nonzero (every
earlier pass exits zero), the request fails and the process trace is the
two probes followed by exactly the first `k + 1` scheduled passes, ending
at the failing one.  In particular a bibliography-pass failure is always
fatal, whether or not its control file exists. -/
theorem pass_failure_always_fatal (env : CompileEnv)
    (hm : env.mainFileExists = true) (hl : env.latexAvailable = true) :
    (∀ k : Nat,
      (∀ e ∈ (stepExits env (fullSteps env.biberAvailable) 0 0).take k, e = 0) →
      (stepExits env (fullSteps env.biberAvailable) 0 0).getD k 0 ≠ 0 →
      (compile_document env false).1 = false ∧
      (compile_document env false).2 =
        [Proc.latexProbe, Proc.biberProbe] ++
          stepProcs ((fullSteps env.biberAvailable).take (k + 1))) ∧
    (env.biberAvailable = true → env.pdflatexExit 0 = 0 → env.biberExit 0 ≠ 0 →
      (compile_document env false).1 = false ∧
      (compile_document env false).2 =
        [Proc.latexProbe, Proc.biberProbe, Proc.latexPass, Proc.biberPass]) := by
  constructor
  · intro k h1 h2
    have hr := runSteps_first_failure env (fullSteps env.biberAvailable) 0 0 k h1 h2
    constructor <;> simp [compile_document, hm, hl, hr]
  · intro hb h0 hbe
    simp [compile_document, fullSteps, runSteps, hm, hl, hb, h0, hbe]

/-- C4 (witness): the amended fatality statement at three concrete
environments — a failing first compiler pass (first failure at position 0),
a failing second compiler pass with biber available (first failure at
position 2, aborting the third pass), and a failing bibliography pass. -/
theorem pass_failure_always_fatal_witness :
    ((compile_document envLatexFails false).1 = false ∧
      (compile_document envLatexFails false).2 =
        [Proc.latexProbe, Proc.biberProbe, Proc.latexPass]) ∧
    ((compile_document envLatex2Fails false).1 = false ∧
      (compile_document envLatex2Fails false).2 =
        [Proc.latexProbe, Proc.biberProbe, Proc.latexPass, Proc.biberPass,
         Proc.latexPass]) ∧
    ((compile_document envBiberFails false).1 = false ∧
      (compile_document envBiberFails false).2 =
        [Proc.latexProbe, Proc.biberProbe, Proc.latexPass, Proc.biberPass]) :=
  ⟨⟨(((pass_failure_always_fatal envLatexFails rfl rfl).1 0 (by decide) (by decide)).1),
    (((pass_failure_always_fatal envLatexFails rfl rfl).1 0 (by decide)
      (by decide)).2).trans (by decide)⟩,
   ⟨(((pass_failure_always_fatal envLatex2Fails rfl rfl).1 2 (by decide) (by decide)).1),
    (((pass_failure_always_fatal envLatex2Fails rfl rfl).1 2 (by decide)
      (by decide)).2).trans (by decide)⟩,
   (pass_failure_always_fatal envBiberFails rfl rfl).2 rfl rfl (by decide)⟩

/-- C6: a compilation request whose source document path does not exist
fails immediately in preflight — `compile_document` returns failure with an
empty process trace, spawning no external process at all, in either
mode. -/
theorem preflight_missing_source_no_spawn (env : CompileEnv) (quick : Bool)
    (h : env.mainFileExists = false) :
    compile_document env quick = (false, []) := by
  simp [compile_document, h]

/-- C6 (witness): the preflight failure at the concrete environment with
the main file absent. -/
theorem preflight_missing_source_no_spawn_witness :
    envNoMain.mainFileExists = false ∧
    compile_document envNoMain true = (false, []) :=
  ⟨rfl, preflight_missing_source_no_spawn envNoMain true rfl⟩

/-- C7 (counterexample): a quick-mode request that passes preflight spawns
the process trace probe-pdflatex, probe-biber, pdflatex-pass: the biber
executable is run (with `--version`) even in quick mode, because
`check_biber_installation` is called before the quick/full branch, so "the
bibliography tool is never invoked" fails for the probe. -/
theorem quick_mode_biber_probe_cex :
    (compile_document envAllGood true).2 =
      [Proc.latexProbe, Proc.biberProbe, Proc.latexPass] ∧
    Proc.biberProbe ∈ (compile_document envAllGood true).2 := by
  decide

/-- C7 (amended): every quick-mode request that passes preflight invokes
exactly one compiler pass and no bibliography pass — bibliography
processing is skipped — although the availability probe still executes the
bibliography tool once with `--version`. -/
theorem quick_mode_single_pass (env : CompileEnv)
    (hm : env.mainFileExists = true) (hl : env.latexAvailable = true) :
    (compile_document env true).2 =
      [Proc.latexProbe, Proc.biberProbe, Proc.latexPass] ∧
    (compile_document env true).2.count Proc.latexPass = 1 ∧
    (compile_document env true).2.count Proc.biberPass = 0 := by
  have h : (compile_document env true).2 =
      [Proc.latexProbe, Proc.biberProbe, Proc.latexPass] := by
    simp [compile_document, hm, hl]
  refine ⟨h, ?_, ?_⟩ <;> rw [h] <;> rfl

/-- C7 (witness): the amended quick-mode trace at the all-available
environment. -/
theorem quick_mode_single_pass_witness :
    (compile_document envAllGood true).2 =
      [Proc.latexProbe, Proc.biberProbe, Proc.latexPass] ∧
    (compile_document envAllGood true).2.count Proc.latexPass = 1 :=
  ⟨(quick_mode_single_pass envAllGood rfl rfl).1,
   (quick_mode_single_pass envAllGood rfl rfl).2.1⟩

/-- C8: cleaning the build directory with keep-pdf enabled keeps exactly
the files whose (case-insensitively lowered) extension is `.pdf` and
removes every other file, counting the removals — so no pdf artifact is
ever deleted while the remaining build files are removed. -/
theorem clean_keeps_pdf_artifacts (files : List (List Char)) :
    (clean_build_directory files true).1 = files.filter isPdfName ∧
    (clean_build_directory files true).2 =
      (files.filter (fun f => !isPdfName f)).length := by
  induction files with
  | nil => exact ⟨rfl, rfl⟩
  | cons f fs ih =>
    simp only [clean_build_directory, List.filter_cons, Bool.true_and]
    cases h : isPdfName f <;> simp [h, ih.1, ih.2]

/-! ## Helper lemmas about the rebuild loop -/

theorem runW_append (delay : Nat) (s : WatchState) (xs ys : List WEvent) :
    runW delay s (xs ++ ys) =
      ((runW delay (runW delay s xs).1 ys).1,
       (runW delay s xs).2 + (runW delay (runW delay s xs).1 ys).2) := by
  induction xs generalizing s with
  | nil => simp [runW]
  | cons e es ih =>
    simp [List.cons_append, runW, ih, Nat.add_assoc]

theorem runW_burst (delay T : Nat) (ts : List Nat)
    (h : ∀ t ∈ ts, t - T < delay) :
    ∀ p : Bool, runW delay ⟨T, p⟩ (ts.map WEvent.change) =
      (⟨T, p || !ts.isEmpty⟩, 0) := by
  induction ts with
  | nil => intro p; simp [runW]
  | cons t ts ih =>
    intro p
    have ht : t - T < delay := h t (List.mem_cons_self t ts)
    have hrest : ∀ u ∈ ts, u - T < delay := fun u hu => h u (List.mem_cons_of_mem t hu)
    simp only [List.map_cons, runW, stepW, schedule_compile, if_pos ht]
    simp [ih hrest true]

/-- C5 (counterexample): with the default two-second delay, a handler whose
last compilation started at time 0 receives a single change event at time
10; `schedule_compile` starts a compilation at time 10 itself, although no
time at all (certainly less than the two-second debounce delay) has elapsed
since that first unconsumed change event — the debounce is measured from
the last compile start, not from the first unconsumed event. -/
theorem rebuild_debounce_from_event_cex :
    (schedule_compile 2 10 ⟨0, false⟩).2 = true ∧
    (schedule_compile 2 10 ⟨0, false⟩).1.last_compile = 10 ∧
    10 - 10 < 2 := by
  decide

/-- C5 (amended): the debounce delay is measured from the last compilation
start: a change event arriving at least `delay` after the last compile
start triggers a compilation immediately; events arriving within `delay` of
a compile start only set the pending flag, and at most one further
compilation starts — at the first poll at least `delay` after that compile
start.  Concretely, from an idle handler, a burst consisting of a change
event at `t1` (with the window open), further change events within the
window of `t1`, and a poll after the window closes starts exactly two
compilations: one immediately at `t1` and one coalesced at the poll. -/
theorem rebuild_debounce_coalescing (delay T t1 tp : Nat) (ts : List Nat)
    (h1 : delay ≤ t1 - T)
    (hts : ∀ t ∈ ts, t - t1 < delay)
    (hne : ts ≠ [])
    (hp : delay ≤ tp - t1) :
    schedule_compile delay t1 ⟨T, false⟩ = (⟨t1, false⟩, true) ∧
    runW delay ⟨T, false⟩
        (WEvent.change t1 :: (ts.map WEvent.change ++ [WEvent.poll tp])) =
      (⟨tp, false⟩, 2) := by
  have hstep : schedule_compile delay t1 ⟨T, false⟩ = (⟨t1, false⟩, true) := by
    simp [schedule_compile, handlerCompile, Nat.not_lt.mpr h1]
  refine ⟨hstep, ?_⟩
  have hbne : (!ts.isEmpty) = true := by
    cases ts with
    | nil => exact absurd rfl hne
    | cons a as => rfl
  simp only [runW, stepW, hstep, runW_append, runW_burst delay t1 ts hts false, hbne,
    Bool.false_or]
  simp [runW, stepW, check_pending_compile, handlerCompile, hp]

/-- C5 (witness): the amended burst behaviour with delay 2: last compile at
time 0, change events at times 10, 11 and 11, poll at time 13 — exactly two
compilations. -/
theorem rebuild_debounce_coalescing_witness :
    schedule_compile 2 10 ⟨0, false⟩ = (⟨10, false⟩, true) ∧
    runW 2 ⟨0, false⟩
        (WEvent.change 10 :: ([11, 11].map WEvent.change ++ [WEvent.poll 13])) =
      (⟨13, false⟩, 2) :=
  rebuild_debounce_coalescing 2 0 10 13 [11, 11] (by decide) (by decide)
    (by decide) (by decide)

/-- C10: starting a watch session on an existing main file performs exactly
one initial compilation (at the session start time) before any filesystem
event is processed, and every later compilation is attributable to the
processed event stream. -/
theorem watch_initial_compile (t0 delay : Nat) :
    watch_files true t0 delay [] = (true, ⟨t0, false⟩, 1) ∧
    ∀ events : List WEvent,
      (watch_files true t0 delay events).2.2 =
        1 + (runW delay ⟨t0, false⟩ events).2 := by
  exact ⟨rfl, fun events => rfl⟩

end LatexBuild
